import Mathlib

/-!
Verification development for the `Equations` experiment-chart script
(`src/io/github/ethankelly/experiments/chart.py`).

The script is a linear pipeline: `pd.read_csv` loads a CSV file into a
dataframe, the dataframe is printed, matplotlib figure/rcParams are set,
`sns.barplot` renders the mean of the `difference` column grouped by the
`probability` column over the rows filtered by `probability >= 00`, labels
are applied and `plt.show()` displays the window.

Numeric values are embedded as exact fractions `Q` (integer numerator,
natural denominator, no normalisation) so that every pipeline function is
kernel-computable; `Q.toRat` maps them to `ℚ` for the specification-level
statements.
-/

namespace Equations

/-- Exact fraction: numerator over (positive, by construction) denominator.
No gcd normalisation is performed, so all operations are structural. -/
structure Q where
  n : Int
  d : Nat
deriving DecidableEq, Repr

/-- Semantic value of a fraction as a rational number. -/
def Q.toRat (a : Q) : ℚ := (a.n : ℚ) / (a.d : ℚ)

/-- Addition of fractions (cross multiplication). -/
def Q.add (a b : Q) : Q := ⟨a.n * b.d + b.n * a.d, a.d * b.d⟩

/-- Subtraction of fractions. -/
def Q.sub (a b : Q) : Q := ⟨a.n * b.d - b.n * a.d, a.d * b.d⟩

/-- Multiplication of fractions. -/
def Q.mul (a b : Q) : Q := ⟨a.n * b.n, a.d * b.d⟩

/-- Division of a fraction by a natural number. -/
def Q.divNat (a : Q) (k : Nat) : Q := ⟨a.n, a.d * k⟩

/-- Negation of a fraction. -/
def Q.neg (a : Q) : Q := ⟨-a.n, a.d⟩

/-- Boolean comparison of fractions by cross multiplication. -/
def Q.ble (a b : Q) : Bool := decide (a.n * (b.d : Int) ≤ b.n * (a.d : Int))

/-- Cross-multiplication equality test for fractions. -/
def Q.eqv (a b : Q) : Prop := a.n * (b.d : Int) = b.n * (a.d : Int)

instance (a b : Q) : Decidable (Q.eqv a b) := by unfold Q.eqv; infer_instance

/-- Sum of a list of fractions. -/
def qsum (xs : List Q) : Q := xs.foldl Q.add ⟨0, 1⟩

/-- Arithmetic mean of a list of fractions (seaborn's default bar estimator). -/
def mean (xs : List Q) : Q := (qsum xs).divNat xs.length

/-- Splits a character list on a separator character. -/
def splitOnChar (sep : Char) : List Char → List (List Char)
  | [] => [[]]
  | c :: cs =>
    match splitOnChar sep cs with
    | [] => if c = sep then [[], [c]] else [[c]]
    | r :: rs => if c = sep then [] :: r :: rs else (c :: r) :: rs

/-- Value of a nonempty all-digit character list, `none` otherwise. -/
def digitsVal? (cs : List Char) : Option Nat :=
  match cs with
  | [] => none
  | _ => cs.foldl (fun acc c => acc.bind (fun n =>
      if c.isDigit then some (10 * n + (c.toNat - 48)) else none)) (some 0)

/-- Parses an unsigned decimal numeral (optionally with a fractional part). -/
def parseRatChars? (cs : List Char) : Option Q :=
  match splitOnChar '.' cs with
  | [ip] => (digitsVal? ip).map (fun n => ⟨(n : Int), 1⟩)
  | [ip, fp] =>
    match digitsVal? ip, digitsVal? fp with
    | some n, some m => some (Q.add ⟨(n : Int), 1⟩ (Q.divNat ⟨(m : Int), 1⟩ (10 ^ fp.length)))
    | _, _ => none
  | _ => none

/-- Parses a (possibly negative) decimal numeral, as pandas type inference
reads the numeric CSV cells. -/
def parseRat? (s : String) : Option Q :=
  match s.data with
  | '-' :: rest => (parseRatChars? rest).map Q.neg
  | cs => parseRatChars? cs

/-- Errors the pipeline can surface, per the script's failure modes. -/
inductive Err where
  | fileNotFound
  | parseError
  | keyError (col : String)
  | typeError
deriving DecidableEq, Repr

/-- In-memory table: ordered column names and ordered rows of cells,
the shape `pd.read_csv` produces. -/
structure Table where
  columns : List String
  rows : List (List String)
deriving DecidableEq, Repr

/-- Index of a column name in a header list (first match). -/
def colIdxAux (c : String) : List String → Option Nat
  | [] => none
  | x :: xs => if x = c then some 0 else (colIdxAux c xs).map (· + 1)

/-- Index of a column in the table, `none` when absent. -/
def Table.colIdx (t : Table) (c : String) : Option Nat := colIdxAux c t.columns

/-- Traverses a list with a fallible function, failing if any element fails. -/
def optTraverse {α β : Type} (f : α → Option β) : List α → Option (List β)
  | [] => some []
  | x :: xs =>
    match f x, optTraverse f xs with
    | some y, some ys => some (y :: ys)
    | _, _ => none

/-- Raw (string) contents of a named column; `KeyError` when the column is
absent, as `dataframe[name]` behaves. -/
def Table.getColumn (t : Table) (c : String) : Except Err (List String) :=
  match t.colIdx c with
  | none => .error (.keyError c)
  | some i => .ok (t.rows.map (fun r => r.getD i ""))

/-- Numeric value of one row in a named column. -/
def Table.rowVal (t : Table) (c : String) (r : List String) : Option Q :=
  (t.colIdx c).bind (fun i => (r[i]?).bind parseRat?)

/-- Numeric contents of a named column; `KeyError` when absent, `TypeError`
when a cell is not numeric (a non-numeric column used in aggregation). -/
def Table.numColumn (t : Table) (c : String) : Except Err (List Q) :=
  match t.colIdx c with
  | none => .error (.keyError c)
  | some i =>
    match optTraverse (fun r => (r[i]?).bind parseRat?) t.rows with
    | none => .error .typeError
    | some vs => .ok vs

/-- Row predicate for the boolean mask `dataframe[c] >= bound`. -/
def rowKeep (i : Nat) (bound : Q) (r : List String) : Bool :=
  match (r[i]?).bind parseRat? with
  | some v => Q.ble bound v
  | none => false

/-- Embeds `dataframe[dataframe[c] >= bound]`: a new table holding exactly
the rows whose `c` value passes the comparison; the original is untouched. -/
def Table.filterGE (t : Table) (c : String) (bound : Q) : Except Err Table :=
  match t.colIdx c with
  | none => .error (.keyError c)
  | some i =>
    match optTraverse (fun r => (r[i]?).bind parseRat?) t.rows with
    | none => .error .typeError
    | some _ => .ok ⟨t.columns, t.rows.filter (fun r => rowKeep i bound r)⟩

/-- Distinct values in first-seen order (the categorical levels of the x axis). -/
def dedupStr (xs : List String) : List String :=
  xs.foldl (fun acc x => if x ∈ acc then acc else acc ++ [x]) []

/-- Embeds `sns.barplot(x=cat, y=val, data=t)`: one bar per distinct category
value, whose height is the mean of the value column over that group. -/
def barplot (t : Table) (cat val : String) : Except Err (List (String × Q)) :=
  match t.getColumn cat with
  | .error e => .error e
  | .ok cs =>
    match t.numColumn val with
    | .error e => .error e
    | .ok vs =>
      let pairs := cs.zip vs
      .ok ((dedupStr cs).map (fun g =>
        (g, mean ((pairs.filter (fun p => decide (p.1 = g))).map Prod.snd))))

/-- Renderer core: filter rows by `cat >= bound`, then draw the bar chart,
as `sns.barplot(x=.., y=.., data=dataframe[dataframe[..] >= 00])` does. -/
def renderBar (t : Table) (cat val : String) (bound : Q) :
    Except Err (List (String × Q)) :=
  match t.filterGE cat bound with
  | .error e => .error e
  | .ok u => barplot u cat val

/-- Semantic (rational) view of a rendered bar chart. -/
def barsToRat (bars : List (String × Q)) : List (String × ℚ) :=
  bars.map (fun p => (p.1, p.2.toRat))

/-- Nonempty lines of a file's contents (pandas skips blank lines). -/
def csvLines (s : String) : List String :=
  ((splitOnChar '\n' s.data).filter (fun l => !l.isEmpty)).map (fun cs => String.mk cs)

/-- Comma-separated fields of one line. -/
def splitFields (l : String) : List String :=
  (splitOnChar ',' l.data).map (fun cs => String.mk cs)

/-- Embeds `pd.read_csv` on the file's contents: header line then data rows,
failing on an empty file or inconsistent column counts. -/
def loadCSV (content : String) : Except Err Table :=
  match csvLines content with
  | [] => .error .parseError
  | header :: dataLines =>
    let cols := splitFields header
    let rows := dataLines.map splitFields
    if rows.all (fun r => r.length == cols.length) then .ok ⟨cols, rows⟩
    else .error .parseError

/-- Loader: resolves the path against the file system, then parses;
a missing file surfaces as `FileNotFoundError`. -/
def load (fs : String → Option String) (path : String) : Except Err Table :=
  match fs path with
  | none => .error .fileNotFound
  | some content => loadCSV content

instance {ε α : Type} [DecidableEq ε] [DecidableEq α] : DecidableEq (Except ε α) :=
  fun a b =>
    match a, b with
    | .error e, .error f =>
      if h : e = f then isTrue (by rw [h]) else isFalse (fun hc => h (by injection hc))
    | .error _, .ok _ => isFalse (fun hc => Except.noConfusion hc)
    | .ok _, .error _ => isFalse (fun hc => Except.noConfusion hc)
    | .ok x, .ok y =>
      if h : x = y then isTrue (by rw [h]) else isFalse (fun hc => h (by injection hc))

/-- Observable actions of a run of the script, in program order. -/
inductive Effect where
  | printTable (cols : List String) (rows : List (List String))
  | newFigure (w h : Nat)
  | setRcParam (key : String) (dpi : Nat)
  | renderBars (bars : List (String × Q))
  | setTitle (s : String)
  | setXLabel (s : String)
  | setYLabel (s : String)
  | showWindow
  | writeFile (path : String)
deriving DecidableEq, Repr

/-- Final state of a run: the `dataframe` variable, the emitted effects, and
the error that aborted the run, if any. -/
structure RunResult where
  dataframe : Option Table
  effects : List Effect
  err : Option Err
deriving Repr

/-- Hard-coded input path of the script. -/
def data_filepath : String :=
  "/Users/ethankelly/IdeaProjects/Equations/data-reg-diff.csv"

/-- Title string the script sets on the chart. -/
def chartTitle : String :=
  "Reduction in numbers of equations needed for ER\ngraphs after using closures"

/-- Effects of the statements between a successful load and the
`sns.barplot` call: the diagnostic print of the dataframe, opening the
figure and setting the two dpi rcParams. -/
def preEffects (dataframe : Table) : List Effect :=
  [.printTable dataframe.columns dataframe.rows,
   .newFigure 12 8,
   .setRcParam "figure.dpi" 300,
   .setRcParam "savefig.dpi" 300]

/-- Effects of the statements after the `sns.barplot` call: labelling the
chart and showing the window. -/
def postEffects (bars : List (String × Q)) : List Effect :=
  [.renderBars bars,
   .setTitle chartTitle,
   .setXLabel "Probability",
   .setYLabel "Difference in number of equations",
   .showWindow]

/-- Embeds the whole script, statement by statement: load the CSV into
`dataframe`, print it, open a figure and set dpi rcParams, render the bar
chart of `difference` by `probability` over rows with `probability >= 00`,
set title and axis labels, and show the window. Uncaught errors abort the
run at the statement that raised them. -/
def runScript (fs : String → Option String) : RunResult :=
  match load fs data_filepath with
  | .error e => { dataframe := none, effects := [], err := some e }
  | .ok dataframe =>
    match renderBar dataframe "probability" "difference" ⟨0, 1⟩ with
    | .error e =>
      { dataframe := some dataframe, effects := preEffects dataframe, err := some e }
    | .ok bars =>
      { dataframe := some dataframe,
        effects := preEffects dataframe ++ postEffects bars,
        err := none }

/-- Insertion of a fraction into a sorted list. -/
def insertSorted (x : Q) : List Q → List Q
  | [] => [x]
  | y :: ys => if Q.ble x y then x :: y :: ys else y :: insertSorted x ys

/-- Insertion sort of fractions. -/
def sortQ (xs : List Q) : List Q := xs.foldr insertSorted []

/-- Smallest element of a list, with a default. -/
def listMin (xs : List Q) (dflt : Q) : Q :=
  match xs with
  | [] => dflt
  | y :: ys => ys.foldl (fun a b => if Q.ble a b then a else b) y

/-- Largest element of a list, with a default. -/
def listMax (xs : List Q) (dflt : Q) : Q :=
  match xs with
  | [] => dflt
  | y :: ys => ys.foldl (fun a b => if Q.ble a b then b else a) y

/-- Modelled from the spec: the percentile of a list of values under the
standard linear-interpolation rule (position `p * (n - 1)` in the sorted
list, interpolating between the two neighbouring order statistics), which
is the quartile rule of the box-plot variant. The box-plot script itself is
not among the sources. -/
def percentile (xs : List Q) (p : Q) : Q :=
  let s := sortQ xs
  let pos := Q.mul p ⟨(s.length : Int) - 1, 1⟩
  let k := (Int.fdiv pos.n (pos.d : Int)).toNat
  let frac := Q.sub pos ⟨(k : Int), 1⟩
  let a := s.getD k ⟨0, 1⟩
  let b := s.getD (k + 1) (s.getD k ⟨0, 1⟩)
  Q.add a (Q.mul frac (Q.sub b a))

/-- Statistics a box-plot glyph displays for one group. -/
structure BoxStats where
  q1 : Q
  med : Q
  q3 : Q
  whiskerLo : Q
  whiskerHi : Q
deriving DecidableEq, Repr

/-- Modelled from the spec: per-group box statistics of the box-plot variant
(whose script is not among the sources) — quartiles by the percentile rule
and whiskers at the extreme observations within 1.5 × IQR of the quartiles,
so that outliers are not displayed. -/
def boxStats (xs : List Q) : BoxStats :=
  let q1 := percentile xs ⟨1, 4⟩
  let med := percentile xs ⟨1, 2⟩
  let q3 := percentile xs ⟨3, 4⟩
  let iqr := Q.sub q3 q1
  let lo := Q.sub q1 (Q.mul ⟨3, 2⟩ iqr)
  let hi := Q.add q3 (Q.mul ⟨3, 2⟩ iqr)
  let inliers := xs.filter (fun x => Q.ble lo x && Q.ble x hi)
  ⟨q1, med, q3, listMin inliers q1, listMax inliers q3⟩

/-- Modelled from the spec: the box-plot variant groups the filtered rows by
the category column and displays the box statistics of the value column per
group. -/
def boxplotChart (t : Table) (cat val : String) :
    Except Err (List (String × BoxStats)) :=
  match t.getColumn cat with
  | .error e => .error e
  | .ok cs =>
    match t.numColumn val with
    | .error e => .error e
    | .ok vs =>
      let pairs := cs.zip vs
      .ok ((dedupStr cs).map (fun g =>
        (g, boxStats ((pairs.filter (fun p => decide (p.1 = g))).map Prod.snd))))

/-- Table of the end-to-end bar-chart scenario. -/
def specTable : Table :=
  ⟨["probability", "result"], [["0.1", "5"], ["0.1", "7"], ["0.2", "3"]]⟩

/-- One-category table carrying the box-plot scenario values 1..5 and 100. -/
def boxTable : Table :=
  ⟨["group", "value"],
   [["A", "1"], ["A", "2"], ["A", "3"], ["A", "4"], ["A", "5"], ["A", "100"]]⟩

/-- Values of the box-plot scenario, as fractions. -/
def boxVals : List Q :=
  [⟨1, 1⟩, ⟨2, 1⟩, ⟨3, 1⟩, ⟨4, 1⟩, ⟨5, 1⟩, ⟨100, 1⟩]

/-- Table with one negative-probability row, used to exercise the filter. -/
def negTable : Table := ⟨["probability"], [["-1"], ["0"], ["2"]]⟩

/-- Contents of a well-formed input file for the script's two columns. -/
def goodCSV : String := "probability,difference\n0.1,5\n0.1,7\n0.2,3"

/-- File system holding `goodCSV` at every path. -/
def fsGood : String → Option String := fun _ => some goodCSV

lemma Q.ble_iff_toRat {a b : Q} (ha : 0 < a.d) (hb : 0 < b.d) :
    Q.ble a b = true ↔ a.toRat ≤ b.toRat := by
  unfold Q.ble Q.toRat
  rw [decide_eq_true_iff]
  rw [div_le_div_iff₀ (by exact_mod_cast ha) (by exact_mod_cast hb)]
  constructor
  · intro h; exact_mod_cast h
  · intro h; exact_mod_cast h

lemma parseRatChars_den_pos {cs : List Char} {v : Q}
    (h : parseRatChars? cs = some v) : 0 < v.d := by
  unfold parseRatChars? at h
  split at h
  · obtain ⟨n, _, rfl⟩ := Option.map_eq_some'.mp h
    exact Nat.one_pos
  · split at h
    · cases h
      simp only [Q.add, Q.divNat]
      positivity
    · cases h
  · cases h

lemma parseRat_den_pos {s : String} {v : Q}
    (h : parseRat? s = some v) : 0 < v.d := by
  unfold parseRat? at h
  split at h
  · obtain ⟨w, hw, rfl⟩ := Option.map_eq_some'.mp h
    simpa [Q.neg] using parseRatChars_den_pos hw
  · exact parseRatChars_den_pos h

lemma colIdxAux_eq_none_iff {c : String} {l : List String} :
    colIdxAux c l = none ↔ c ∉ l := by
  induction l with
  | nil => simp [colIdxAux]
  | cons x xs ih =>
    by_cases hx : x = c
    · subst hx
      simp [colIdxAux]
    · simp only [colIdxAux, if_neg hx, Option.map_eq_none', ih, List.mem_cons]
      constructor
      · intro hn hc
        rcases hc with hc | hc
        · exact hx hc.symm
        · exact hn hc
      · intro hn
        exact fun hc => hn (Or.inr hc)

lemma colIdx_exists_of_mem {c : String} {l : List String} (h : c ∈ l) :
    ∃ i, colIdxAux c l = some i := by
  cases hc : colIdxAux c l with
  | none => exact absurd (colIdxAux_eq_none_iff.mp hc) (not_not_intro h)
  | some i => exact ⟨i, rfl⟩

lemma optTraverse_isSome {α β : Type} {f : α → Option β} {xs : List α}
    (h : ∀ x ∈ xs, (f x).isSome) : ∃ ys, optTraverse f xs = some ys := by
  induction xs with
  | nil => exact ⟨[], rfl⟩
  | cons x xs ih =>
    obtain ⟨y, hy⟩ := Option.isSome_iff_exists.mp (h x (List.mem_cons_self x xs))
    obtain ⟨ys, hys⟩ := ih (fun a ha => h a (List.mem_cons_of_mem x ha))
    exact ⟨y :: ys, by simp [optTraverse, hy, hys]⟩

lemma rowVal_eq {t : Table} {c : String} {i : Nat}
    (h : t.colIdx c = some i) (r : List String) :
    t.rowVal c r = (r[i]?).bind parseRat? := by
  unfold Table.rowVal
  rw [h]
  rfl

lemma rowKeep_iff {i : Nat} {r : List String} :
    rowKeep i ⟨0, 1⟩ r = true ↔
      ∃ v, (r[i]?).bind parseRat? = some v ∧ 0 ≤ v.toRat := by
  unfold rowKeep
  cases hv : (r[i]?).bind parseRat? with
  | none => simp
  | some v =>
    obtain ⟨cell, _, hparse⟩ := Option.bind_eq_some.mp hv
    have hd : 0 < v.d := parseRat_den_pos hparse
    rw [Q.ble_iff_toRat Nat.one_pos hd]
    have h0 : (⟨0, 1⟩ : Q).toRat = 0 := by norm_num [Q.toRat]
    rw [h0]
    simp

/-- C2: on any table the filter `probability ≥ 0` keeps exactly the rows
whose probability value is defined and nonnegative (zero included): the
filtered table the aggregation runs on contains a row iff the row is in the
input and its probability is `≥ 0`, so no negative-probability row can
influence any group statistic. -/
theorem filter_rows_exact (t t' : Table)
    (h : t.filterGE "probability" ⟨0, 1⟩ = .ok t') :
    t'.columns = t.columns ∧
    ∀ r, r ∈ t'.rows ↔
      (r ∈ t.rows ∧ ∃ v, t.rowVal "probability" r = some v ∧ 0 ≤ v.toRat) := by
  unfold Table.filterGE at h
  split at h
  · exact Except.noConfusion h
  next i hci =>
    split at h
    · exact Except.noConfusion h
    next vs hvs =>
      have ht' : (⟨t.columns, t.rows.filter (fun r => rowKeep i ⟨0, 1⟩ r)⟩ : Table) = t' := by
        injection h
      subst ht'
      refine ⟨rfl, fun r => ?_⟩
      simp only [List.mem_filter]
      constructor
      · rintro ⟨hr, hk⟩
        obtain ⟨v, hv, hpos⟩ := rowKeep_iff.mp hk
        exact ⟨hr, v, by rw [rowVal_eq hci]; exact hv, hpos⟩
      · rintro ⟨hr, v, hv, hpos⟩
        rw [rowVal_eq hci] at hv
        exact ⟨hr, rowKeep_iff.mpr ⟨v, hv, hpos⟩⟩

/-- Witness for C2 on a table holding probabilities `-1`, `0`, `2`: the
filtered table keeps exactly the `0` and `2` rows, and the `-1` row is
characterised as excluded. -/
theorem filter_rows_exact_witness :
    (⟨["probability"], [["0"], ["2"]]⟩ : Table).columns = negTable.columns ∧
    (["-1"] ∈ (⟨["probability"], [["0"], ["2"]]⟩ : Table).rows ↔
      (["-1"] ∈ negTable.rows ∧
        ∃ v, negTable.rowVal "probability" ["-1"] = some v ∧ 0 ≤ v.toRat)) :=
  ⟨(filter_rows_exact negTable ⟨["probability"], [["0"], ["2"]]⟩ (by decide)).1,
   (filter_rows_exact negTable ⟨["probability"], [["0"], ["2"]]⟩ (by decide)).2 ["-1"]⟩

/-- C4: whenever the chart names a category or value column absent from the
table, the renderer fails with a `KeyError` naming a column that is not in
the table — it never falls back to a default column. -/
theorem missing_column_key_error (t : Table) (cat val : String)
    (h : cat ∉ t.columns ∨ val ∉ t.columns) :
    ∃ c, barplot t cat val = .error (.keyError c) ∧ c ∉ t.columns := by
  by_cases hc : cat ∈ t.columns
  · have hv : val ∉ t.columns := h.resolve_left (not_not_intro hc)
    obtain ⟨i, hi⟩ := colIdx_exists_of_mem hc
    refine ⟨val, ?_, hv⟩
    have hGet : t.getColumn cat = .ok (t.rows.map (fun r => r.getD i "")) := by
      unfold Table.getColumn Table.colIdx
      rw [hi]
    have hNum : t.numColumn val = .error (.keyError val) := by
      unfold Table.numColumn Table.colIdx
      rw [colIdxAux_eq_none_iff.mpr hv]
    unfold barplot
    rw [hGet, hNum]
  · refine ⟨cat, ?_, hc⟩
    have hGet : t.getColumn cat = .error (.keyError cat) := by
      unfold Table.getColumn Table.colIdx
      rw [colIdxAux_eq_none_iff.mpr hc]
    unfold barplot
    rw [hGet]

/-- Witness for C4: asking the scenario table for the absent value column
`missing` produces a `KeyError`. -/
theorem missing_column_key_error_witness :
    ∃ c, barplot specTable "probability" "missing" = .error (.keyError c) ∧
      c ∉ specTable.columns :=
  missing_column_key_error specTable "probability" "missing" (Or.inr (by decide))

/-- C1: on the scenario table with rows `(0.1, 5)`, `(0.1, 7)`, `(0.2, 3)`,
the bar chart (rows filtered by `probability ≥ 0`, grouped by the category
column, seaborn's default mean estimator) renders per group the mean of the
value column over that group's filtered rows: `6` for group `0.1` and `3`
for group `0.2`. -/
theorem barchart_mean_scenario :
    renderBar specTable "probability" "result" ⟨0, 1⟩ =
      .ok [("0.1", mean [⟨5, 1⟩, ⟨7, 1⟩]), ("0.2", mean [⟨3, 1⟩])] ∧
    Q.toRat (mean [⟨5, 1⟩, ⟨7, 1⟩]) = 6 ∧ Q.toRat (mean [⟨3, 1⟩]) = 3 := by
  refine ⟨by decide, ?_, ?_⟩
  · have h : mean [⟨5, 1⟩, ⟨7, 1⟩] = ⟨12, 2⟩ := by decide
    rw [h]; norm_num [Q.toRat]
  · have h : mean [⟨3, 1⟩] = ⟨3, 1⟩ := by decide
    rw [h]; norm_num [Q.toRat]

/-- C3: spec-modelled box-plot variant — the per-group statistics are the
standard five-number summary (median the 50th percentile, Q1/Q3 the
25th/75th percentiles under linear interpolation) with outliers hidden;
for values `[1,2,3,4,5,100]` under one category the quartiles are
`9/4, 7/2, 19/4` and the upper whisker stops at `5`, not at `100`. -/
theorem boxplot_five_number :
    boxplotChart boxTable "group" "value" = .ok [("A", boxStats boxVals)] ∧
    (boxStats boxVals).med = percentile boxVals ⟨1, 2⟩ ∧
    (boxStats boxVals).q1 = percentile boxVals ⟨1, 4⟩ ∧
    (boxStats boxVals).q3 = percentile boxVals ⟨3, 4⟩ ∧
    Q.toRat (boxStats boxVals).med = 7 / 2 ∧
    Q.toRat (boxStats boxVals).q1 = 9 / 4 ∧
    Q.toRat (boxStats boxVals).q3 = 19 / 4 ∧
    Q.toRat (boxStats boxVals).whiskerHi = 5 ∧
    Q.toRat (boxStats boxVals).whiskerHi < 100 := by
  have hmed : (boxStats boxVals).med = ⟨7, 2⟩ := by decide
  have hq1 : (boxStats boxVals).q1 = ⟨9, 4⟩ := by decide
  have hq3 : (boxStats boxVals).q3 = ⟨19, 4⟩ := by decide
  have hw : (boxStats boxVals).whiskerHi = ⟨5, 1⟩ := by decide
  refine ⟨by decide, by decide, by decide, by decide, ?_, ?_, ?_, ?_, ?_⟩
  · rw [hmed]; norm_num [Q.toRat]
  · rw [hq1]; norm_num [Q.toRat]
  · rw [hq3]; norm_num [Q.toRat]
  · rw [hw]; norm_num [Q.toRat]
  · rw [hw]; norm_num [Q.toRat]

/-- C6: the loader is deterministic in the file's contents — two loads of
the same contents yield tables with identical columns and rows. -/
theorem loader_idempotent (content : String) (t₁ t₂ : Table)
    (h₁ : loadCSV content = .ok t₁) (h₂ : loadCSV content = .ok t₂) :
    t₁.columns = t₂.columns ∧ t₁.rows = t₂.rows := by
  rw [h₁] at h₂
  have h : t₁ = t₂ := by injection h₂
  rw [h]
  exact ⟨rfl, rfl⟩

lemma runScript_load_error {fs : String → Option String} {e : Err}
    (h : load fs data_filepath = .error e) :
    runScript fs = ⟨none, [], some e⟩ := by
  unfold runScript
  rw [h]

lemma runScript_load_ok {fs : String → Option String} {t : Table}
    (h : load fs data_filepath = .ok t) :
    runScript fs =
      match renderBar t "probability" "difference" ⟨0, 1⟩ with
      | .error e => ⟨some t, preEffects t, some e⟩
      | .ok bars => ⟨some t, preEffects t ++ postEffects bars, none⟩ := by
  unfold runScript
  rw [h]

/-- C5: a valid delimited file (a header line followed by data lines of the
same field count) loads into a table whose columns are exactly the header's
fields and whose rows are the data lines' fields, in file order and number. -/
theorem loader_contract (content header : String) (dataLines : List String)
    (h : csvLines content = header :: dataLines)
    (hvalid : ∀ l ∈ dataLines, (splitFields l).length = (splitFields header).length) :
    ∃ t, loadCSV content = .ok t ∧
      t.columns = splitFields header ∧
      t.rows = dataLines.map splitFields ∧
      t.rows.length = dataLines.length := by
  refine ⟨⟨splitFields header, dataLines.map splitFields⟩, ?_, rfl, rfl, by simp⟩
  unfold loadCSV
  rw [h]
  have hall : (dataLines.map splitFields).all
      (fun r => r.length == (splitFields header).length) = true := by
    rw [List.all_eq_true]
    intro r hr
    obtain ⟨l, hl, rfl⟩ := List.mem_map.mp hr
    simpa using hvalid l hl
  simp [hall]

/-- Witness for C5 at a concrete three-line file. -/
theorem loader_contract_witness :
    ∃ t, loadCSV "probability,result\n0.1,5\n0.2,3" = .ok t ∧
      t.columns = splitFields "probability,result" ∧
      t.rows = ["0.1,5", "0.2,3"].map splitFields ∧
      t.rows.length = (["0.1,5", "0.2,3"] : List String).length :=
  loader_contract "probability,result\n0.1,5\n0.2,3" "probability,result"
    ["0.1,5", "0.2,3"] (by decide) (by decide)

/-- C7: a missing file surfaces as `FileNotFoundError` and a malformed file
as `ParseError`; loader errors are never caught — whatever error the load
step raises is exactly the error the whole run terminates with, and no
effect is performed. -/
theorem loader_errors_surface (fs : String → Option String) :
    (fs data_filepath = none →
      runScript fs = ⟨none, [], some .fileNotFound⟩) ∧
    (∀ content, fs data_filepath = some content →
      loadCSV content = .error .parseError →
      runScript fs = ⟨none, [], some .parseError⟩) ∧
    (∀ e, load fs data_filepath = .error e →
      runScript fs = ⟨none, [], some e⟩) := by
  have hprop : ∀ e, load fs data_filepath = .error e →
      runScript fs = ⟨none, [], some e⟩ := fun e he => runScript_load_error he
  refine ⟨?_, ?_, hprop⟩
  · intro h0
    refine hprop _ ?_
    unfold load
    rw [h0]
  · intro content hcontent hparse
    refine hprop _ ?_
    unfold load
    rw [hcontent]
    exact hparse

/-- Witness for C7 on the empty file system: the run terminates with
`FileNotFoundError` having performed nothing. -/
theorem loader_errors_surface_witness :
    runScript (fun _ => none) = ⟨none, [], some .fileNotFound⟩ :=
  (loader_errors_surface (fun _ => none)).1 rfl

/-- C8: no run ever emits a write-to-file effect, even though the
`savefig.dpi` rcParam is configured; a successful run's outputs are the
diagnostic print of the loaded table, the configuration effects, the
rendered bars and the interactive display. -/
theorem no_file_written (fs : String → Option String) :
    (∀ p, Effect.writeFile p ∉ (runScript fs).effects) ∧
    ((runScript fs).err = none →
      Effect.setRcParam "savefig.dpi" 300 ∈ (runScript fs).effects ∧
      Effect.showWindow ∈ (runScript fs).effects ∧
      ∃ cols rows, Effect.printTable cols rows ∈ (runScript fs).effects) := by
  cases hl : load fs data_filepath with
  | error e =>
    rw [runScript_load_error hl]
    refine ⟨fun p => ?_, fun hn => ?_⟩
    · simp
    · simp at hn
  | ok t =>
    rw [runScript_load_ok hl]
    cases hr : renderBar t "probability" "difference" ⟨0, 1⟩ with
    | error e =>
      refine ⟨fun p => ?_, fun hn => ?_⟩
      · simp [preEffects]
      · simp at hn
    | ok bars =>
      refine ⟨fun p => ?_, fun hn => ?_⟩
      · simp [preEffects, postEffects]
      · exact ⟨by simp [preEffects], by simp [preEffects, postEffects],
          t.columns, t.rows, by simp [preEffects]⟩

/-- Witness for C8 on a file system holding a well-formed file: the run
succeeds, emits no write effect, and shows the window. -/
theorem no_file_written_witness :
    Effect.writeFile data_filepath ∉ (runScript fsGood).effects ∧
    Effect.showWindow ∈ (runScript fsGood).effects :=
  ⟨(no_file_written fsGood).1 data_filepath,
   ((no_file_written fsGood).2 (by decide)).2.1⟩

/-- C9: the loaded table is never mutated — after the whole run, including
the boolean-mask filter that builds a fresh table, the `dataframe` variable
still holds exactly the table the loader produced. -/
theorem dataframe_not_mutated (fs : String → Option String) (t : Table)
    (h : load fs data_filepath = .ok t) :
    (runScript fs).dataframe = some t := by
  rw [runScript_load_ok h]
  cases renderBar t "probability" "difference" ⟨0, 1⟩ <;> rfl

/-- Witness for C9: running on the well-formed file leaves `dataframe` equal
to the loaded table. -/
theorem dataframe_not_mutated_witness :
    (runScript fsGood).dataframe =
      some ⟨["probability", "difference"], [["0.1", "5"], ["0.1", "7"], ["0.2", "3"]]⟩ :=
  dataframe_not_mutated fsGood
    ⟨["probability", "difference"], [["0.1", "5"], ["0.1", "7"], ["0.2", "3"]]⟩
    (by decide)

/-- C10: the run needs only the `probability` and `difference` columns — on
any file whose table has those two columns with numeric cells, the pipeline
completes with no error at all (in particular no column-not-found error),
even when `result`, `result-reg` and `result-red` are absent, because the
scatter overlays that referenced them are commented out. -/
theorem only_prob_diff_required (fs : String → Option String) (content : String)
    (t : Table)
    (hfs : fs data_filepath = some content)
    (hload : loadCSV content = .ok t)
    (hp : "probability" ∈ t.columns)
    (hd : "difference" ∈ t.columns)
    (hnum : ∀ r ∈ t.rows,
      (t.rowVal "probability" r).isSome ∧ (t.rowVal "difference" r).isSome) :
    (runScript fs).err = none := by
  have hloadfs : load fs data_filepath = .ok t := by
    unfold load
    rw [hfs]
    exact hload
  obtain ⟨i, hi⟩ := colIdx_exists_of_mem hp
  have hi' : t.colIdx "probability" = some i := hi
  obtain ⟨j, hj⟩ := colIdx_exists_of_mem hd
  have hj' : t.colIdx "difference" = some j := hj
  have htravP : ∀ r ∈ t.rows, ((r[i]?).bind parseRat?).isSome := by
    intro r hr
    have h1 := (hnum r hr).1
    rwa [rowVal_eq hi'] at h1
  obtain ⟨ps, hps⟩ := optTraverse_isSome htravP
  have hfil : t.filterGE "probability" ⟨0, 1⟩ =
      .ok ⟨t.columns, t.rows.filter (fun r => rowKeep i ⟨0, 1⟩ r)⟩ := by
    unfold Table.filterGE
    simp only [hi', hps]
  have hi2 : Table.colIdx ⟨t.columns, t.rows.filter (fun r => rowKeep i ⟨0, 1⟩ r)⟩
      "probability" = some i := hi
  have hj2 : Table.colIdx ⟨t.columns, t.rows.filter (fun r => rowKeep i ⟨0, 1⟩ r)⟩
      "difference" = some j := hj
  have hGetP : Table.getColumn ⟨t.columns, t.rows.filter (fun r => rowKeep i ⟨0, 1⟩ r)⟩
      "probability" =
      .ok ((t.rows.filter (fun r => rowKeep i ⟨0, 1⟩ r)).map (fun r => r.getD i "")) := by
    unfold Table.getColumn
    simp only [hi2]
  have htravD : ∀ r ∈ t.rows.filter (fun r => rowKeep i ⟨0, 1⟩ r),
      ((r[j]?).bind parseRat?).isSome := by
    intro r hr
    have h2 := (hnum r (List.mem_filter.mp hr).1).2
    rwa [rowVal_eq hj'] at h2
  obtain ⟨ds, hds⟩ := optTraverse_isSome htravD
  have hNumD : Table.numColumn ⟨t.columns, t.rows.filter (fun r => rowKeep i ⟨0, 1⟩ r)⟩
      "difference" = .ok ds := by
    unfold Table.numColumn
    simp only [hj2, hds]
  cases hr : renderBar t "probability" "difference" ⟨0, 1⟩ with
  | error e =>
    exfalso
    unfold renderBar at hr
    simp only [hfil] at hr
    unfold barplot at hr
    simp only [hGetP, hNumD] at hr
    exact Except.noConfusion hr
  | ok bars =>
    rw [runScript_load_ok hloadfs, hr]

/-- Witness for C10: the well-formed two-column file (no `result` columns at
all) runs to completion with no error. -/
theorem only_prob_diff_required_witness :
    (runScript fsGood).err = none :=
  only_prob_diff_required fsGood goodCSV
    ⟨["probability", "difference"], [["0.1", "5"], ["0.1", "7"], ["0.2", "3"]]⟩
    rfl (by decide) (by decide) (by decide) (by decide)

/-- Witness for C6 at a concrete two-line file. -/
theorem loader_idempotent_witness :
    (⟨["probability", "result"], [["0.1", "5"]]⟩ : Table).columns =
      (⟨["probability", "result"], [["0.1", "5"]]⟩ : Table).columns ∧
    (⟨["probability", "result"], [["0.1", "5"]]⟩ : Table).rows =
      (⟨["probability", "result"], [["0.1", "5"]]⟩ : Table).rows :=
  loader_idempotent "probability,result\n0.1,5"
    ⟨["probability", "result"], [["0.1", "5"]]⟩
    ⟨["probability", "result"], [["0.1", "5"]]⟩ (by decide) (by decide)

end Equations
